import Mathlib

/-!
Shallow embedding of `main.py` from the `ColorChecker_for_ST2100` repository.

Conventions used throughout this development:

* Python float arithmetic is modelled by exact arithmetic: `ℚ` for the
  geometry, the quantizer and the matrix pipeline, `ℝ` for the transfer
  functions.  At every value that decides a claim the float-64 result of the
  script coincides with the exact result; the two borderline products
  `1080 * (1 / 4.5)` and `1920 * 0.15` round to exactly `240.0` and `288.0`
  in double precision, matching the exact values used here.
* Python `int(...)` truncates toward zero; every quantity the script
  truncates is nonnegative, so truncation agrees with `Int.floor` there.
* `np.round` rounds half to even; converting a float to `np.uint16` reduces
  the (already integral) rounded value modulo `2 ^ 16`.
-/

namespace ColorChecker

/-- Python `int(x)` on a float: truncation toward zero. -/
def py_int (x : ℚ) : ℤ := if x < 0 then -⌊-x⌋ else ⌊x⌋

/-- `np.round(x)`: round to the nearest integer, ties to the even integer. -/
def np_round (x : ℚ) : ℤ :=
  if x - ⌊x⌋ < 1 / 2 then ⌊x⌋
  else if 1 / 2 < x - ⌊x⌋ then ⌊x⌋ + 1
  else if ⌊x⌋ % 2 = 0 then ⌊x⌋ else ⌊x⌋ + 1

/-- `IMG_MAX_LEVEL = 0xFFFF` (main.py line 70). -/
def IMG_MAX_LEVEL : ℚ := 65535

/-- `_get_16bit_img` (main.py lines 259-273): `np.uint16(np.round(img * IMG_MAX_LEVEL))`.
The conversion of the rounded float to `np.uint16` wraps modulo `2 ^ 16`. -/
def get_16bit_img (x : ℚ) : ℕ := ((np_round (x * IMG_MAX_LEVEL)) % 65536).toNat

/-- `np_round` returns either the floor or the floor plus one. -/
theorem np_round_eq_floor_or_succ (x : ℚ) :
    np_round x = ⌊x⌋ ∨ np_round x = ⌊x⌋ + 1 := by
  unfold np_round
  split
  · exact Or.inl rfl
  · split
    · exact Or.inr rfl
    · split
      · exact Or.inl rfl
      · exact Or.inr rfl

/-- If `np_round` rounds up, the fractional part is at least one half. -/
theorem np_round_eq_succ_imp (x : ℚ) (h : np_round x = ⌊x⌋ + 1) :
    1 / 2 ≤ x - ⌊x⌋ := by
  by_cases h1 : x - ⌊x⌋ < 1 / 2
  · exfalso
    unfold np_round at h
    rw [if_pos h1] at h
    omega
  · linarith [not_lt.mp h1]

/-! ## Quantization claims -/

/-- C5: the quantization function maps an encoded value of exactly `0.0` to the
integer `0`, exactly `1.0` to `65535`, and exactly `0.5` to `32768`
(`round(32767.5) = 32768`, rounding half to even). -/
theorem quantize_anchor_values :
    get_16bit_img 0 = 0 ∧ get_16bit_img 1 = 65535 ∧ get_16bit_img (1/2) = 32768 := by
  refine ⟨?_, ?_, ?_⟩ <;> norm_num [get_16bit_img, np_round, IMG_MAX_LEVEL] <;> decide

/-- C4: quantization scales by `65535` and rounds to the nearest integer; on
`[0,1]` the result is exactly the rounded scaled value, while inputs outside
`[0,1]` wrap modulo `2^16` instead of being clamped: `-0.5` maps to `32768`
(not `0`) and `2.0` maps to `65534` (not `65535`). -/
theorem quantize_wraps_out_of_range :
    (∀ x : ℚ, 0 ≤ x → x ≤ 1 → (get_16bit_img x : ℤ) = np_round (x * IMG_MAX_LEVEL)) ∧
    get_16bit_img (-1/2) = 32768 ∧ get_16bit_img (-1/2) ≠ 0 ∧
    get_16bit_img 2 = 65534 ∧ get_16bit_img 2 ≠ 65535 := by
  refine ⟨?_, ?_, ?_, ?_, ?_⟩
  · intro x hx0 hx1
    have hscale : (0:ℚ) ≤ x * IMG_MAX_LEVEL := by
      have : (0:ℚ) ≤ IMG_MAX_LEVEL := by norm_num [IMG_MAX_LEVEL]
      exact mul_nonneg hx0 this
    have hscale' : x * IMG_MAX_LEVEL ≤ 65535 := by
      have : x * IMG_MAX_LEVEL ≤ 1 * IMG_MAX_LEVEL := by
        have : (0:ℚ) ≤ IMG_MAX_LEVEL := by norm_num [IMG_MAX_LEVEL]
        exact mul_le_mul_of_nonneg_right hx1 this
      simpa [IMG_MAX_LEVEL] using this
    set t := x * IMG_MAX_LEVEL with ht
    have hfl0 : (0:ℤ) ≤ ⌊t⌋ := by positivity
    have hfl1 : ⌊t⌋ ≤ 65535 := by
      have : (⌊t⌋ : ℚ) ≤ t := Int.floor_le t
      have h2 : (⌊t⌋ : ℚ) ≤ 65535 := le_trans this hscale'
      exact_mod_cast h2
    have hr0 : 0 ≤ np_round t := by
      rcases np_round_eq_floor_or_succ t with h | h <;> omega
    have hr1 : np_round t ≤ 65535 := by
      rcases np_round_eq_floor_or_succ t with h | h
      · omega
      · by_contra hcon
        have hfl : ⌊t⌋ = 65535 := by omega
        have := np_round_eq_succ_imp t h
        rw [hfl] at this
        push_cast at this
        linarith
    unfold get_16bit_img
    rw [Int.emod_eq_of_lt hr0 (by omega)]
    exact Int.toNat_of_nonneg hr0
  all_goals norm_num [get_16bit_img, np_round, IMG_MAX_LEVEL] <;> decide

/-! ## Image geometry (main.py lines 63-69 and 198-256) -/

/-- `IMG_WIDTH = 1920`. -/
def IMG_WIDTH : ℚ := 1920

/-- `IMG_HEIGHT = 1080`. -/
def IMG_HEIGHT : ℚ := 1080

/-- `COLOR_CHECKER_SIZE = 1 / 4.5`. -/
def COLOR_CHECKER_SIZE : ℚ := 1 / 4.5

/-- `COLOR_CHECKER_PADDING = 0.01`. -/
def COLOR_CHECKER_PADDING : ℚ := 0.01

/-- `h_num = 6` (local grid width in `make_color_checker_image`). -/
def h_num : ℕ := 6

/-- `v_num = 4` (local grid height in `make_color_checker_image`). -/
def v_num : ℕ := 4

/-- `patch_st_h` (main.py lines 204-208), with the grid width `hn` in place of
the constant `COLOR_CHECKER_H_NUM`. -/
def patch_st_h (hn : ℕ) : ℤ :=
  py_int (IMG_WIDTH / 2 - (IMG_HEIGHT * COLOR_CHECKER_SIZE * hn / 2
    + (IMG_HEIGHT * COLOR_CHECKER_PADDING * (hn / 2 - 0.5)) / 2))

/-- `patch_st_v` (main.py lines 209-213), with the grid height `vn` in place of
the constant `COLOR_CHECKER_V_NUM`. -/
def patch_st_v (vn : ℕ) : ℤ :=
  py_int (IMG_HEIGHT / 2 - (IMG_HEIGHT * COLOR_CHECKER_SIZE * vn / 2
    + (IMG_HEIGHT * COLOR_CHECKER_PADDING * (vn / 2 - 0.5)) / 2))

/-- `patch_width = int(img_height * COLOR_CHECKER_SIZE)` (main.py line 214). -/
def patch_width : ℤ := py_int (IMG_HEIGHT * COLOR_CHECKER_SIZE)

/-- `patch_height = patch_width` (main.py line 215). -/
def patch_height : ℤ := patch_width

/-- `patch_space = int(img_height * COLOR_CHECKER_PADDING)` (main.py line 216). -/
def patch_space : ℤ := py_int (IMG_HEIGHT * COLOR_CHECKER_PADDING)

/-- An RGB pixel value. -/
abbrev Rgb := ℝ × ℝ × ℝ

/-- A canvas, as a total pixel map `(row, column) ↦ value`. -/
def Canvas : Type := ℤ → ℤ → Rgb

/-- `np.zeros((img_height, img_width, 3))`. -/
def zeros : Canvas := fun _ _ => (0, 0, 0)

/-- A pixel rectangle: origin `(st_h, st_v)`, width `w`, height `h`. -/
structure Rect where
  st_h : ℤ
  st_v : ℤ
  w : ℤ
  h : ℤ
deriving DecidableEq

/-- Pixel `(r, c)` lies in rectangle `R` (`img[st_v:st_v+h, st_h:st_h+w]`). -/
def inRect (R : Rect) (r c : ℤ) : Prop :=
  R.st_v ≤ r ∧ r < R.st_v + R.h ∧ R.st_h ≤ c ∧ c < R.st_h + R.w

instance inRect_decidable (R : Rect) (r c : ℤ) : Decidable (inRect R r c) := by
  unfold inRect; infer_instance

/-- `img[st_v:st_v+patch_height, st_h:st_h+patch_width] = patch`. -/
def paintRect (R : Rect) (v : Rgb) (cv : Canvas) : Canvas :=
  fun r c => if inRect R r c then v else cv r c

/-- The mosaic rectangle of ordinal `idx` (main.py lines 227-234):
`v_idx = idx // h_num`, `h_idx = idx % h_num`, origin
`(patch_st_h + (patch_width + patch_space) * h_idx,
  patch_st_v + (patch_height + patch_space) * v_idx)`. -/
def mosaic_rect (hn vn : ℕ) (idx : ℕ) : Rect :=
  ⟨patch_st_h hn + (patch_width + patch_space) * ((idx % hn : ℕ) : ℤ),
   patch_st_v vn + (patch_height + patch_space) * ((idx / hn : ℕ) : ℤ),
   patch_width, patch_height⟩

/-- The composite mosaic canvas (main.py lines 222, 227-234). -/
def img_all_patch (hn vn : ℕ) (rgb : ℕ → Rgb) : Canvas :=
  (List.range (hn * vn)).foldl
    (fun cv idx => paintRect (mosaic_rect hn vn idx) (rgb idx) cv) zeros

/-- Leftmost pixel column of the union of all mosaic rectangles. -/
def mosaic_bbox_left (hn : ℕ) : ℤ := patch_st_h hn

/-- One past the rightmost pixel column of the union of all mosaic rectangles
(`hn ≥ 1` columns, the last starting at column index `hn - 1`). -/
def mosaic_bbox_right (hn : ℕ) : ℤ :=
  patch_st_h hn + ((hn : ℤ) - 1) * (patch_width + patch_space) + patch_width

/-- Topmost pixel row of the union of all mosaic rectangles. -/
def mosaic_bbox_top (vn : ℕ) : ℤ := patch_st_v vn

/-- One past the bottommost pixel row of the union of all mosaic rectangles. -/
def mosaic_bbox_bottom (vn : ℕ) : ℤ :=
  patch_st_v vn + ((vn : ℤ) - 1) * (patch_height + patch_space) + patch_height

/-- The mosaic bounding box is centered in the 1920x1080 canvas to within one
pixel on both axes: twice the distance between the bounding-box center and the
canvas center is at most 2 pixels. -/
def mosaic_centered_one_px (hn vn : ℕ) : Prop :=
  |mosaic_bbox_left hn + mosaic_bbox_right hn - 1920| ≤ 2 ∧
  |mosaic_bbox_top vn + mosaic_bbox_bottom vn - 1080| ≤ 2

/-- `patch_width` evaluates to 240 pixels. -/
theorem patch_width_eval : patch_width = 240 := by
  norm_num [patch_width, py_int, IMG_HEIGHT, COLOR_CHECKER_SIZE]

/-- `patch_space` evaluates to 10 pixels. -/
theorem patch_space_eval : patch_space = 10 := by
  norm_num [patch_space, py_int, IMG_HEIGHT, COLOR_CHECKER_PADDING]

/-- Every mosaic rectangle of a `hn x vn` grid lies inside the bounding box. -/
theorem mosaic_rect_in_bbox (hn vn : ℕ) (hhn : 1 ≤ hn) (idx : ℕ)
    (h : idx < hn * vn) :
    mosaic_bbox_left hn ≤ (mosaic_rect hn vn idx).st_h ∧
    (mosaic_rect hn vn idx).st_h + patch_width ≤ mosaic_bbox_right hn ∧
    mosaic_bbox_top vn ≤ (mosaic_rect hn vn idx).st_v ∧
    (mosaic_rect hn vn idx).st_v + patch_height ≤ mosaic_bbox_bottom vn := by
  have hvn : 1 ≤ vn := by
    rcases Nat.eq_zero_or_pos vn with h0 | h0
    · subst h0; omega
    · exact h0
  have hmod : idx % hn ≤ hn - 1 := by
    have := Nat.mod_lt idx (show 0 < hn by omega)
    omega
  have hdiv : idx / hn ≤ vn - 1 := by
    have : idx / hn < vn := Nat.div_lt_of_lt_mul h
    omega
  have hcast : ∀ a b : ℕ, 1 ≤ b → a ≤ b - 1 → ((a : ℤ) ≤ (b : ℤ) - 1) := by
    intro a b hb hab
    have h1 : ((a : ℕ) : ℤ) ≤ ((b - 1 : ℕ) : ℤ) := by exact_mod_cast hab
    rwa [Nat.cast_sub hb, Nat.cast_one] at h1
  have hmZ : ((idx % hn : ℕ) : ℤ) ≤ (hn : ℤ) - 1 := hcast _ _ hhn hmod
  have hdZ : ((idx / hn : ℕ) : ℤ) ≤ (vn : ℤ) - 1 := hcast _ _ hvn hdiv
  have hm0 : (0 : ℤ) ≤ ((idx % hn : ℕ) : ℤ) := Int.natCast_nonneg _
  have hd0 : (0 : ℤ) ≤ ((idx / hn : ℕ) : ℤ) := Int.natCast_nonneg _
  unfold mosaic_rect mosaic_bbox_left mosaic_bbox_right mosaic_bbox_top
    mosaic_bbox_bottom
  rw [show patch_height = patch_width from rfl, patch_width_eval, patch_space_eval]
  dsimp only
  refine ⟨by linarith, by linarith, by linarith, by linarith⟩

/-- Evaluation of the mosaic start offsets for the three grid configurations
of the centering claim. -/
theorem patch_st_eval :
    patch_st_h 6 = 226 ∧ patch_st_v 4 = 51 ∧
    patch_st_h 4 = 471 ∧ patch_st_v 4 = 51 ∧
    patch_st_h 1 = 840 ∧ patch_st_v 1 = 420 := by
  refine ⟨?_, ?_, ?_, ?_, ?_, ?_⟩ <;>
    norm_num [patch_st_h, patch_st_v, py_int, IMG_WIDTH, IMG_HEIGHT,
      COLOR_CHECKER_SIZE, COLOR_CHECKER_PADDING]

/-- C2 (refuted): the mosaic layout is mis-centered.  For the 6x4 grid the
bounding box of the 24 patch rectangles spans columns `[226, 1716)` and rows
`[51, 1041)`, so its center `(971, 546)` sits 11 pixels right of and 6 pixels
below the canvas center `(960, 540)`; the 4x4 grid is 6 pixels off on both
axes.  Only the 1x1 grid is centered.  The cause: lines 204-213 of main.py
divide the half-padding term `PADDING * (N/2 - 0.5)` by 2 once more, so only a
quarter of the total padding is compensated. -/
theorem mosaic_centering_defect :
    mosaic_bbox_left 6 = 226 ∧ mosaic_bbox_right 6 = 1716 ∧
    mosaic_bbox_top 4 = 51 ∧ mosaic_bbox_bottom 4 = 1041 ∧
    (mosaic_rect 6 4 0).st_h = mosaic_bbox_left 6 ∧
    (mosaic_rect 6 4 0).st_v = mosaic_bbox_top 4 ∧
    (mosaic_rect 6 4 23).st_h + (mosaic_rect 6 4 23).w = mosaic_bbox_right 6 ∧
    (mosaic_rect 6 4 23).st_v + (mosaic_rect 6 4 23).h = mosaic_bbox_bottom 4 ∧
    ¬ mosaic_centered_one_px 6 4 ∧
    ¬ mosaic_centered_one_px 4 4 ∧
    mosaic_centered_one_px 1 1 := by
  obtain ⟨h64h, h64v, h44h, h44v, h11h, h11v⟩ := patch_st_eval
  refine ⟨?_, ?_, ?_, ?_, ?_, ?_, ?_, ?_, ?_, ?_, ?_⟩ <;>
    simp only [mosaic_centered_one_px, mosaic_bbox_left, mosaic_bbox_right,
      mosaic_bbox_top, mosaic_bbox_bottom, mosaic_rect, h64h, h64v, h44h, h44v,
      h11h, h11v, patch_width_eval, patch_space_eval,
      show patch_height = patch_width from rfl] <;>
    norm_num [patch_width_eval]

/-! ## Single-patch (measurement) images, main.py lines 242-256 -/

/-- `patch_width = int(img_width * 0.15)` (main.py line 244). -/
def single_patch_width : ℤ := py_int (IMG_WIDTH * 0.15)

/-- `st_h = (img_width // 2) - (patch_width // 2)` (main.py line 246). -/
def single_st_h : ℤ := 1920 / 2 - single_patch_width / 2

/-- `st_v = (img_height // 2) - (patch_height // 2)` (main.py line 247). -/
def single_st_v : ℤ := 1080 / 2 - single_patch_width / 2

/-- The unique rectangle used by every single-patch image. -/
def single_rect : Rect :=
  ⟨single_st_h, single_st_v, single_patch_width, single_patch_width⟩

/-- The single-patch canvas after the first `n` iterations of the loop at
main.py lines 250-256: the canvas `img_each_patch` is allocated once (line
223) and each iteration repaints the same rectangle with the next color. -/
def img_each_patch_state (rgb : ℕ → Rgb) : ℕ → Canvas
  | 0 => zeros
  | n + 1 => paintRect single_rect (rgb n) (img_each_patch_state rgb n)

/-- The sequence of canvases saved to the 24 measurement files: the file of
ordinal `idx` is written right after iteration `idx` paints the canvas. -/
def measure_canvases (rgb : ℕ → Rgb) : List Canvas :=
  (List.range (h_num * v_num)).map (fun idx => img_each_patch_state rgb (idx + 1))

/-- Pixels outside the single-patch rectangle are never painted. -/
theorem img_each_patch_state_outside (rgb : ℕ → Rgb) (n : ℕ) (r c : ℤ)
    (h : ¬ inRect single_rect r c) :
    img_each_patch_state rgb n r c = (0, 0, 0) := by
  induction n with
  | zero => rfl
  | succ k ih =>
      show paintRect single_rect (rgb k) (img_each_patch_state rgb k) r c = _
      unfold paintRect
      rw [if_neg h]
      exact ih

/-- C8: every single-patch image uses one and the same rectangle for all 24
patches, a square of side `int(0.15 * 1920) = 288` pixels with origin
`(1920/2 - 288/2, 1080/2 - 288/2) = (816, 396)`; the canvas exported for
patch `k` holds the value of patch `k` inside that rectangle and zero at
every pixel outside it. -/
theorem single_patch_canvas_exact :
    (single_rect = ⟨816, 396, 288, 288⟩ ∧ single_patch_width = 288 ∧
      single_st_h = 1920 / 2 - 288 / 2 ∧ single_st_v = 1080 / 2 - 288 / 2) ∧
    ∀ (rgb : ℕ → Rgb) (k : ℕ), k < h_num * v_num →
      (measure_canvases rgb)[k]? = some (img_each_patch_state rgb (k + 1)) ∧
      ∀ r c : ℤ, img_each_patch_state rgb (k + 1) r c =
        if inRect single_rect r c then rgb k else (0, 0, 0) := by
  have hw : single_patch_width = 288 := by
    norm_num [single_patch_width, py_int, IMG_WIDTH]
  have hh : single_st_h = 816 := by norm_num [single_st_h, hw]
  have hv : single_st_v = 396 := by norm_num [single_st_v, hw]
  refine ⟨⟨?_, hw, by norm_num [hh], by norm_num [hv]⟩, ?_⟩
  · unfold single_rect
    rw [hw, hh, hv]
  · intro rgb k hk
    constructor
    · unfold measure_canvases
      rw [List.getElem?_map, List.getElem?_range hk, Option.map_some']
    · intro r c
      by_cases hin : inRect single_rect r c
      · rw [if_pos hin]
        show paintRect single_rect (rgb k) (img_each_patch_state rgb k) r c = _
        unfold paintRect
        rw [if_pos hin]
      · rw [if_neg hin]
        exact img_each_patch_state_outside rgb (k + 1) r c hin

/-! ## Mosaic composite: row-major placement -/

/-- Concrete form of the 6x4 mosaic rectangle of ordinal `idx`. -/
theorem mosaic_rect_eval (idx : ℕ) :
    mosaic_rect 6 4 idx =
      ⟨226 + 250 * ((idx % 6 : ℕ) : ℤ), 51 + 250 * ((idx / 6 : ℕ) : ℤ),
        240, 240⟩ := by
  obtain ⟨h64h, h64v, -, -, -, -⟩ := patch_st_eval
  unfold mosaic_rect
  rw [show patch_height = patch_width from rfl, patch_width_eval,
    patch_space_eval, h64h, h64v]
  norm_num

/-- If no rectangle in the list covers a pixel, the paint loop leaves it. -/
theorem foldl_paint_not_covered (R : ℕ → Rect) (rgb : ℕ → Rgb) (l : List ℕ)
    (cv : Canvas) (r c : ℤ) (h : ∀ j ∈ l, ¬ inRect (R j) r c) :
    l.foldl (fun cv idx => paintRect (R idx) (rgb idx) cv) cv r c = cv r c := by
  induction l generalizing cv with
  | nil => rfl
  | cons hd tl ih =>
      rw [List.foldl_cons,
        ih _ (fun j hj => h j (List.mem_cons_of_mem hd hj))]
      unfold paintRect
      rw [if_neg (h hd (List.mem_cons_self hd tl))]

/-- If exactly one listed rectangle covers a pixel, the paint loop gives that
rectangle's color at that pixel. -/
theorem foldl_paint_covered (R : ℕ → Rect) (rgb : ℕ → Rgb) (l : List ℕ)
    (cv : Canvas) (r c : ℤ) (idx : ℕ) (hmem : idx ∈ l)
    (hcov : inRect (R idx) r c)
    (huniq : ∀ j ∈ l, inRect (R j) r c → j = idx) :
    l.foldl (fun cv idx => paintRect (R idx) (rgb idx) cv) cv r c = rgb idx := by
  induction l generalizing cv with
  | nil => cases hmem
  | cons hd tl ih =>
      rw [List.foldl_cons]
      by_cases htl : idx ∈ tl
      · exact ih _ htl (fun j hj hcj => huniq j (List.mem_cons_of_mem hd hj) hcj)
      · have hhd : hd = idx := by
          rcases List.mem_cons.mp hmem with h1 | h1
          · exact h1.symm
          · exact absurd h1 htl
        have hnone : ∀ j ∈ tl, ¬ inRect (R j) r c := by
          intro j hj hcj
          exact htl ((huniq j (List.mem_cons_of_mem hd hj) hcj) ▸ hj)
        rw [foldl_paint_not_covered R rgb tl _ r c hnone]
        unfold paintRect
        rw [hhd, if_pos hcov]

/-- Two distinct mosaic rectangles of the 6x4 grid share no pixel. -/
theorem mosaic_rects_disjoint (i j : ℕ) (_hi : i < 24) (_hj : j < 24)
    (hne : i ≠ j) (r c : ℤ) (h : inRect (mosaic_rect 6 4 i) r c) :
    ¬ inRect (mosaic_rect 6 4 j) r c := by
  intro h'
  rw [mosaic_rect_eval] at h h'
  unfold inRect at h h'
  dsimp only at h h'
  apply hne
  omega

/-- C10: in the composite mosaic, patch `idx` is placed in row-major order at
grid column `idx % 6` and grid row `idx / 6`, with pixel origin
`(patch_st_h + (patch_width + patch_space) * (idx % 6),
  patch_st_v + (patch_height + patch_space) * (idx / 6)) =
(226 + 250 * (idx % 6), 51 + 250 * (idx / 6))`; the top-left rectangle is
ordinal `0`, and on the whole composite canvas every pixel of rectangle `idx`
holds the color of patch `idx`. -/
theorem mosaic_row_major :
    ∀ (rgb : ℕ → Rgb) (idx : ℕ), idx < h_num * v_num →
      mosaic_rect h_num v_num idx =
        ⟨226 + 250 * ((idx % 6 : ℕ) : ℤ), 51 + 250 * ((idx / 6 : ℕ) : ℤ),
          240, 240⟩ ∧
      (mosaic_rect h_num v_num 0).st_h = mosaic_bbox_left 6 ∧
      (mosaic_rect h_num v_num 0).st_v = mosaic_bbox_top 4 ∧
      ∀ r c : ℤ, inRect (mosaic_rect h_num v_num idx) r c →
        img_all_patch h_num v_num rgb r c = rgb idx := by
  intro rgb idx hidx
  have h24 : h_num * v_num = 24 := rfl
  obtain ⟨h64h, h64v, -, -, -, -⟩ := patch_st_eval
  refine ⟨mosaic_rect_eval idx, ?_, ?_, ?_⟩
  · rw [show mosaic_rect h_num v_num 0 = mosaic_rect 6 4 0 from rfl,
      mosaic_rect_eval]
    unfold mosaic_bbox_left
    rw [h64h]
    rfl
  · rw [show mosaic_rect h_num v_num 0 = mosaic_rect 6 4 0 from rfl,
      mosaic_rect_eval]
    unfold mosaic_bbox_top
    rw [h64v]
    rfl
  · intro r c hcov
    unfold img_all_patch
    refine foldl_paint_covered _ rgb _ zeros r c idx ?_ hcov ?_
    · exact List.mem_range.mpr (h24 ▸ hidx)
    · intro j hj hcj
      by_contra hne
      exact mosaic_rects_disjoint idx j (h24 ▸ hidx)
        (List.mem_range.mp (h24 ▸ hj)) (fun he => hne he.symm) r c hcov hcj

/-! ## Color space conversion (main.py lines 83-138)

The numeric color library (`colour`) the script calls into is embedded here
by its mathematical definition: `xyY_to_XYZ`, the CAT02 Von Kries chromatic
adaptation matrix, and the BT.2020 `XYZ_to_RGB` matrix derived from the
BT.2020 primaries and the D65 white point, all in exact rational
arithmetic. -/

/-- A 3-component vector of exact rationals. -/
abbrev Vec3 := ℚ × ℚ × ℚ

/-- A 3x3 rational matrix, by entries. -/
structure Mat3 where
  m00 : ℚ
  m01 : ℚ
  m02 : ℚ
  m10 : ℚ
  m11 : ℚ
  m12 : ℚ
  m20 : ℚ
  m21 : ℚ
  m22 : ℚ
deriving DecidableEq

/-- Matrix-vector product. -/
def mulMV (M : Mat3) (v : Vec3) : Vec3 :=
  (M.m00 * v.1 + M.m01 * v.2.1 + M.m02 * v.2.2,
   M.m10 * v.1 + M.m11 * v.2.1 + M.m12 * v.2.2,
   M.m20 * v.1 + M.m21 * v.2.1 + M.m22 * v.2.2)

/-- Matrix-matrix product. -/
def mulMM (A B : Mat3) : Mat3 :=
  ⟨A.m00 * B.m00 + A.m01 * B.m10 + A.m02 * B.m20,
   A.m00 * B.m01 + A.m01 * B.m11 + A.m02 * B.m21,
   A.m00 * B.m02 + A.m01 * B.m12 + A.m02 * B.m22,
   A.m10 * B.m00 + A.m11 * B.m10 + A.m12 * B.m20,
   A.m10 * B.m01 + A.m11 * B.m11 + A.m12 * B.m21,
   A.m10 * B.m02 + A.m11 * B.m12 + A.m12 * B.m22,
   A.m20 * B.m00 + A.m21 * B.m10 + A.m22 * B.m20,
   A.m20 * B.m01 + A.m21 * B.m11 + A.m22 * B.m21,
   A.m20 * B.m02 + A.m21 * B.m12 + A.m22 * B.m22⟩

/-- Determinant. -/
def det3 (M : Mat3) : ℚ :=
  M.m00 * (M.m11 * M.m22 - M.m12 * M.m21)
    - M.m01 * (M.m10 * M.m22 - M.m12 * M.m20)
    + M.m02 * (M.m10 * M.m21 - M.m11 * M.m20)

/-- Matrix inverse (adjugate over determinant). -/
def inv3 (M : Mat3) : Mat3 :=
  ⟨(M.m11 * M.m22 - M.m12 * M.m21) / det3 M,
   (M.m02 * M.m21 - M.m01 * M.m22) / det3 M,
   (M.m01 * M.m12 - M.m02 * M.m11) / det3 M,
   (M.m12 * M.m20 - M.m10 * M.m22) / det3 M,
   (M.m00 * M.m22 - M.m02 * M.m20) / det3 M,
   (M.m02 * M.m10 - M.m00 * M.m12) / det3 M,
   (M.m10 * M.m21 - M.m11 * M.m20) / det3 M,
   (M.m01 * M.m20 - M.m00 * M.m21) / det3 M,
   (M.m00 * M.m11 - M.m01 * M.m10) / det3 M⟩

/-- Diagonal matrix. -/
def diag3 (d : Vec3) : Mat3 :=
  ⟨d.1, 0, 0, 0, d.2.1, 0, 0, 0, d.2.2⟩

/-- `colour.models.xy_to_XYZ` for a chromaticity pair (unit luminance). -/
def xy_to_XYZ (xy : ℚ × ℚ) : Vec3 :=
  (xy.1 / xy.2, 1, (1 - xy.1 - xy.2) / xy.2)

/-- `colour.models.xyY_to_XYZ` (used at main.py line 106). -/
def xyY_to_XYZ (p : Vec3) : Vec3 :=
  (p.1 * p.2.2 / p.2.1, p.2.2, (1 - p.1 - p.2.1) * p.2.2 / p.2.1)

/-- The CAT02 cone response matrix (`CHROMATIC_ADAPTATION_TRANSFORM = 'CAT02'`,
main.py line 23). -/
def CAT02_CAT : Mat3 :=
  ⟨0.7328, 0.4296, -0.1624,
   -0.7036, 1.6975, 0.0061,
   0.0030, 0.0136, 0.9834⟩

/-- `colour.adaptation.chromatic_adaptation_matrix_VonKries` with the CAT02
transform: `CAT⁻¹ · diag(LMS_target / LMS_source) · CAT`. -/
def vonKries_CAT02 (XYZ_w XYZ_wr : Vec3) : Mat3 :=
  mulMM (inv3 CAT02_CAT)
    (mulMM (diag3 ((mulMV CAT02_CAT XYZ_wr).1 / (mulMV CAT02_CAT XYZ_w).1,
                   (mulMV CAT02_CAT XYZ_wr).2.1 / (mulMV CAT02_CAT XYZ_w).2.1,
                   (mulMV CAT02_CAT XYZ_wr).2.2 / (mulMV CAT02_CAT XYZ_w).2.2))
      CAT02_CAT)

/-- The BT.2020 red, green and blue primaries (chromaticity pairs). -/
def BT2020_PRIMARIES : (ℚ × ℚ) × (ℚ × ℚ) × (ℚ × ℚ) :=
  ((0.708, 0.292), (0.170, 0.797), (0.131, 0.046))

/-- The BT.2020 white point, D65. -/
def BT2020_WHITEPOINT : ℚ × ℚ := (0.3127, 0.3290)

/-- The matrix whose columns are the XYZ coordinates of the primaries. -/
def primary_matrix : Mat3 :=
  ⟨(xy_to_XYZ BT2020_PRIMARIES.1).1, (xy_to_XYZ BT2020_PRIMARIES.2.1).1,
     (xy_to_XYZ BT2020_PRIMARIES.2.2).1,
   (xy_to_XYZ BT2020_PRIMARIES.1).2.1, (xy_to_XYZ BT2020_PRIMARIES.2.1).2.1,
     (xy_to_XYZ BT2020_PRIMARIES.2.2).2.1,
   (xy_to_XYZ BT2020_PRIMARIES.1).2.2, (xy_to_XYZ BT2020_PRIMARIES.2.1).2.2,
     (xy_to_XYZ BT2020_PRIMARIES.2.2).2.2⟩

/-- `colour.models.normalised_primary_matrix` for BT.2020: the primary matrix
with each column scaled so the white point maps to the primaries' sum. -/
def BT2020_npm : Mat3 :=
  mulMM primary_matrix
    (diag3 (mulMV (inv3 primary_matrix) (xy_to_XYZ BT2020_WHITEPOINT)))

/-- `COLOR_SPACE.XYZ_to_RGB_matrix` for BT.2020 (main.py line 133). -/
def BT2020_XYZ_to_RGB_matrix : Mat3 := inv3 BT2020_npm

/-- `get_linear_rgb_from_large_xyz` (main.py lines 111-138):
`colour.models.XYZ_to_RGB` with no encoding CCTF — chromatic adaptation from
the chart white point to D65, then the XYZ-to-RGB matrix.  No clamping. -/
def get_linear_rgb_from_large_xyz (large_xyz : Vec3) (whitepoint : ℚ × ℚ) : Vec3 :=
  mulMV BT2020_XYZ_to_RGB_matrix
    (mulMV (vonKries_CAT02 (xy_to_XYZ whitepoint) (xy_to_XYZ BT2020_WHITEPOINT))
      large_xyz)

/-- Componentwise clamp to `[0, 1]` (what the converter does NOT do). -/
def clip01 (v : Vec3) : Vec3 :=
  (max 0 (min 1 v.1), max 0 (min 1 v.2.1), max 0 (min 1 v.2.2))

/-- The list of linear RGB triples `main_func` computes (main.py lines
279-280) and then hands to `get_rgb_with_prime` (line 281): one converter
output per chart patch, unchanged. -/
def main_rgb_linear (chart : List Vec3) (wp : ℚ × ℚ) : List Vec3 :=
  (chart.map xyY_to_XYZ).map (fun z => get_linear_rgb_from_large_xyz z wp)

/-- A triple with a negative component is changed by clamping to `[0,1]`. -/
theorem clip01_ne_of_neg (v : Vec3) (h : v.2.1 < 0) : clip01 v ≠ v := by
  intro he
  have h21 : (clip01 v).2.1 = v.2.1 := by rw [he]
  unfold clip01 at h21
  dsimp only at h21
  have : (0 : ℚ) ≤ max 0 (min 1 v.2.1) := le_max_left 0 _
  rw [h21] at this
  linarith

/-- C7: the color space converter's linear RGB output is not clamped: the
triples handed to the encoder are exactly the converter outputs, patch by
patch, and an out-of-gamut reference chromaticity (spectral red
`xyY = (0.735, 0.265, 0.2)`, outside the BT.2020 gamut) produces a negative
green component that survives unchanged — clamping to `[0,1]` would have
altered it. -/
theorem linear_rgb_not_clamped :
    (∀ (chart : List Vec3) (wp : ℚ × ℚ) (i : ℕ),
      (main_rgb_linear chart wp)[i]? =
        (chart[i]?).map
          (fun p => get_linear_rgb_from_large_xyz (xyY_to_XYZ p) wp)) ∧
    (get_linear_rgb_from_large_xyz (xyY_to_XYZ (0.735, 0.265, 0.2))
        BT2020_WHITEPOINT).2.1 < 0 ∧
    main_rgb_linear [(0.735, 0.265, 0.2)] BT2020_WHITEPOINT =
      [get_linear_rgb_from_large_xyz (xyY_to_XYZ (0.735, 0.265, 0.2))
        BT2020_WHITEPOINT] ∧
    clip01 (get_linear_rgb_from_large_xyz (xyY_to_XYZ (0.735, 0.265, 0.2))
        BT2020_WHITEPOINT) ≠
      get_linear_rgb_from_large_xyz (xyY_to_XYZ (0.735, 0.265, 0.2))
        BT2020_WHITEPOINT := by
  have hneg : (get_linear_rgb_from_large_xyz (xyY_to_XYZ (0.735, 0.265, 0.2))
      BT2020_WHITEPOINT).2.1 < 0 := by
    norm_num [get_linear_rgb_from_large_xyz, xyY_to_XYZ, BT2020_WHITEPOINT,
      BT2020_XYZ_to_RGB_matrix, BT2020_npm, primary_matrix, BT2020_PRIMARIES,
      vonKries_CAT02, CAT02_CAT, xy_to_XYZ, mulMV, mulMM, inv3, det3, diag3]
  refine ⟨?_, hneg, ?_, clip01_ne_of_neg _ hneg⟩
  · intro chart wp i
    unfold main_rgb_linear
    rw [List.getElem?_map, List.getElem?_map, Option.map_map]
    rfl
  · rfl

/-! ## HDR transfer functions (main.py lines 33-61, 141-166)

The `colour` library transfer functions the script selects between are
embedded by their defining formulas (ARIB STD-B67 / ITU-R BT.2100 HLG and
SMPTE ST 2084), over `ℝ`, at the library's default parameters
(`L_B = 0`, `L_W = 1000`, `L_p = 10000`). -/

/-- ARIB STD-B67 constant `a = 0.17883277`. -/
noncomputable def ARIB_a : ℝ := 0.17883277

/-- ARIB STD-B67 constant `b = 0.28466892`. -/
noncomputable def ARIB_b : ℝ := 0.28466892

/-- ARIB STD-B67 constant `c = 0.55991073`. -/
noncomputable def ARIB_c : ℝ := 0.55991073

/-- `colour.models.oetf_ARIBSTDB67` with `r = 0.5`:
`E' = r * sqrt(E)` for `E ≤ 1`, else `a * ln(E - b) + c`. -/
noncomputable def oetf_ARIBSTDB67 (E : ℝ) : ℝ :=
  if E ≤ 1 then 0.5 * Real.sqrt E else ARIB_a * Real.log (E - ARIB_b) + ARIB_c

/-- `colour.models.oetf_BT2100_HLG (E) = oetf_ARIBSTDB67 (12 E)`:
the plain HLG OETF, with no OOTF compensation. -/
noncomputable def oetf_BT2100_HLG (E : ℝ) : ℝ := oetf_ARIBSTDB67 (12 * E)

/-- BT.2100 HLG system gamma at nominal peak luminance `L_W`:
`1.2 + 0.42 * log10 (L_W / 1000)`. -/
noncomputable def hlg_gamma (L_W : ℝ) : ℝ := 1.2 + 0.42 * Real.logb 10 (L_W / 1000)

/-- `colour.models.ootf_inverse` of BT.2100 HLG on a single channel, at the
default `L_B = 0`, `L_W = 1000` (so `alpha = 1000`):
`E_s = (F_D / alpha) ^ ((1 - gamma) / gamma) * (F_D / alpha)`, with `0 ↦ 0`. -/
noncomputable def ootf_inverse_BT2100_HLG (F_D : ℝ) : ℝ :=
  if F_D = 0 then 0
  else (F_D / 1000) ^ ((1 - hlg_gamma 1000) / hlg_gamma 1000) * (F_D / 1000)

/-- `colour.models.eotf_reverse_BT2100_HLG` (main.py line 57): the plain HLG
OETF composed with the inverse of the display OOTF. -/
noncomputable def eotf_reverse_BT2100_HLG (F_D : ℝ) : ℝ :=
  oetf_BT2100_HLG (ootf_inverse_BT2100_HLG F_D)

/-- SMPTE ST 2084 constant `m1 = 2610 / 4096 * 0.25`. -/
noncomputable def ST2084_m1 : ℝ := 2610 / 4096 * 0.25

/-- SMPTE ST 2084 constant `m2 = 2523 / 4096 * 128`. -/
noncomputable def ST2084_m2 : ℝ := 2523 / 4096 * 128

/-- SMPTE ST 2084 constant `c1 = 3424 / 4096`. -/
noncomputable def ST2084_c1 : ℝ := 3424 / 4096

/-- SMPTE ST 2084 constant `c2 = 2413 / 4096 * 32`. -/
noncomputable def ST2084_c2 : ℝ := 2413 / 4096 * 32

/-- SMPTE ST 2084 constant `c3 = 2392 / 4096 * 32`. -/
noncomputable def ST2084_c3 : ℝ := 2392 / 4096 * 32

/-- `colour.models.oetf_ST2084` (main.py line 59) at the default peak
`L_p = 10000`: the PQ curve alone, no OOTF compensation. -/
noncomputable def oetf_ST2084 (C : ℝ) : ℝ :=
  ((ST2084_c1 + ST2084_c2 * (C / 10000) ^ ST2084_m1) /
    (1 + ST2084_c3 * (C / 10000) ^ ST2084_m1)) ^ ST2084_m2

/-- The module-level transfer-function selection (main.py lines 54-61):
`OETF_FUNC` is the reverse HLG EOTF for `'HLG'`, the ST 2084 OETF for
`'ST2084'`, and `None` otherwise. -/
noncomputable def OETF_FUNC (oetf_type : String) : Option (ℝ → ℝ) :=
  if oetf_type = "HLG" then some eotf_reverse_BT2100_HLG
  else if oetf_type = "ST2084" then some oetf_ST2084
  else none

/-- `TARGET_BRIGHTNESS = 100` cd/m2 (main.py line 14). -/
noncomputable def TARGET_BRIGHTNESS : ℝ := 100

/-- `get_rgb_with_prime` (main.py lines 141-166) per sample:
`rgb_bright = rgb * TARGET_BRIGHTNESS`, then `rgb_prime = oetf_func(rgb_bright)`. -/
noncomputable def get_rgb_with_prime (oetf_func : ℝ → ℝ) (rgb : ℝ) : ℝ :=
  oetf_func (rgb * TARGET_BRIGHTNESS)

/-! ### Bounding rational powers of rationals -/

/-- Upper bound on `x ^ (a / b)` from an ordinary power inequality. -/
theorem rpow_div_nat_lt {x q : ℝ} (a b : ℕ) (hx : 0 ≤ x) (hq : 0 ≤ q)
    (hb : 0 < b) (h : x ^ a < q ^ b) : x ^ ((a : ℝ) / (b : ℝ)) < q := by
  have key : (x ^ ((a : ℝ) / (b : ℝ))) ^ b < q ^ b := by
    rw [← Real.rpow_natCast (x ^ ((a : ℝ) / (b : ℝ))) b, ← Real.rpow_mul hx,
      div_mul_cancel₀, Real.rpow_natCast]
    · exact h
    · exact_mod_cast hb.ne'
  exact lt_of_pow_lt_pow_left₀ b hq key

/-- Upper bound, non-strict version. -/
theorem rpow_div_nat_le {x q : ℝ} (a b : ℕ) (hx : 0 ≤ x) (hq : 0 ≤ q)
    (hb : 0 < b) (h : x ^ a ≤ q ^ b) : x ^ ((a : ℝ) / (b : ℝ)) ≤ q := by
  have key : (x ^ ((a : ℝ) / (b : ℝ))) ^ b ≤ q ^ b := by
    rw [← Real.rpow_natCast (x ^ ((a : ℝ) / (b : ℝ))) b, ← Real.rpow_mul hx,
      div_mul_cancel₀, Real.rpow_natCast]
    · exact h
    · exact_mod_cast hb.ne'
  exact le_of_pow_le_pow_left₀ hb.ne' hq key

/-- Lower bound on `x ^ (a / b)` from an ordinary power inequality. -/
theorem rpow_div_nat_gt {x q : ℝ} (a b : ℕ) (hx : 0 ≤ x) (_hq : 0 ≤ q)
    (hb : 0 < b) (h : q ^ b < x ^ a) : q < x ^ ((a : ℝ) / (b : ℝ)) := by
  have key : q ^ b < (x ^ ((a : ℝ) / (b : ℝ))) ^ b := by
    rw [← Real.rpow_natCast (x ^ ((a : ℝ) / (b : ℝ))) b, ← Real.rpow_mul hx,
      div_mul_cancel₀, Real.rpow_natCast]
    · exact h
    · exact_mod_cast hb.ne'
  exact lt_of_pow_lt_pow_left₀ b (Real.rpow_nonneg hx _) key

/-! ### Evaluating the HLG encoder at the claim's probe input -/

/-- The HLG system gamma is exactly `1.2` at the default `L_W = 1000`. -/
theorem hlg_gamma_1000 : hlg_gamma 1000 = 1.2 := by
  unfold hlg_gamma
  norm_num [Real.logb, Real.log_one]

/-- On positive input the inverse OOTF is `(F_D / 1000) ^ (5 / 6)`. -/
theorem ootf_inverse_pos (F : ℝ) (hF : 0 < F) :
    ootf_inverse_BT2100_HLG F = (F / 1000) ^ ((5 : ℝ) / 6) := by
  unfold ootf_inverse_BT2100_HLG
  rw [if_neg hF.ne', hlg_gamma_1000,
    show ((1 : ℝ) - 1.2) / 1.2 = -(1 / 6) by norm_num]
  have hp : (0 : ℝ) < F / 1000 := by positivity
  calc (F / 1000) ^ (-(1 / 6) : ℝ) * (F / 1000)
      = (F / 1000) ^ (-(1 / 6) : ℝ) * (F / 1000) ^ (1 : ℝ) := by
        rw [Real.rpow_one]
    _ = (F / 1000) ^ ((-(1 / 6) : ℝ) + 1) := (Real.rpow_add hp _ _).symm
    _ = (F / 1000) ^ ((5 : ℝ) / 6) := by norm_num

/-- Below the knee the reverse HLG EOTF is the square-root branch. -/
theorem eotf_reverse_sqrt_branch (F : ℝ) (hF : 0 < F)
    (h : 12 * (F / 1000) ^ ((5 : ℝ) / 6) ≤ 1) :
    eotf_reverse_BT2100_HLG F =
      0.5 * Real.sqrt (12 * (F / 1000) ^ ((5 : ℝ) / 6)) := by
  unfold eotf_reverse_BT2100_HLG oetf_BT2100_HLG oetf_ARIBSTDB67
  rw [ootf_inverse_pos F hF, if_pos h]

/-- `(50/1000) ^ (5/6) < 1/12`: the probe value is below the HLG knee. -/
theorem probe_A50_lt : ((50 : ℝ) / 1000) ^ ((5 : ℝ) / 6) < 1 / 12 := by
  rw [show ((5 : ℝ) / 6) = ((5 : ℕ) : ℝ) / ((6 : ℕ) : ℝ) by norm_num]
  exact rpow_div_nat_lt 5 6 (by norm_num) (by norm_num) (by norm_num)
    (by norm_num)

/-- `529/7500 < (50/1000) ^ (5/6)`: lower bound for the probe value. -/
theorem probe_A50_gt : (529 / 7500 : ℝ) < ((50 : ℝ) / 1000) ^ ((5 : ℝ) / 6) := by
  rw [show ((5 : ℝ) / 6) = ((5 : ℕ) : ℝ) / ((6 : ℕ) : ℝ) by norm_num]
  exact rpow_div_nat_gt 5 6 (by norm_num) (by norm_num) (by norm_num)
    (by norm_num)

/-- The HLG-family encoder output at display luminance 50 cd/m2, in closed
square-root form. -/
theorem eotf_reverse_50_eq :
    eotf_reverse_BT2100_HLG 50 =
      0.5 * Real.sqrt (12 * ((50 : ℝ) / 1000) ^ ((5 : ℝ) / 6)) :=
  eotf_reverse_sqrt_branch 50 (by norm_num) (by linarith [probe_A50_lt])

/-- The HLG-family encoder stays strictly below `1/2` at the probe input. -/
theorem eotf_reverse_50_lt_half : eotf_reverse_BT2100_HLG 50 < 1 / 2 := by
  rw [eotf_reverse_50_eq]
  have hs : Real.sqrt (12 * ((50 : ℝ) / 1000) ^ ((5 : ℝ) / 6)) < 1 := by
    rw [Real.sqrt_lt' one_pos]
    nlinarith [probe_A50_lt]
  linarith

/-- The HLG-family encoder stays strictly above `23/50` at the probe input. -/
theorem eotf_reverse_50_gt : (23 : ℝ) / 50 < eotf_reverse_BT2100_HLG 50 := by
  rw [eotf_reverse_50_eq]
  have h0 : (0 : ℝ) ≤ 23 / 25 := by norm_num
  have hs : (23 : ℝ) / 25 < Real.sqrt (12 * ((50 : ℝ) / 1000) ^ ((5 : ℝ) / 6)) := by
    rw [Real.lt_sqrt h0]
    nlinarith [probe_A50_gt]
  linarith

/-- The plain HLG OETF (no OOTF compensation) exceeds `1/2` at 50 cd/m2: the
input is far above the knee, so the logarithmic branch applies. -/
theorem oetf_BT2100_HLG_50_gt_half : 1 / 2 < oetf_BT2100_HLG 50 := by
  unfold oetf_BT2100_HLG oetf_ARIBSTDB67
  rw [if_neg (by norm_num : ¬ (12 * (50 : ℝ) ≤ 1))]
  have hb : 12 * (50 : ℝ) - ARIB_b > 1 := by norm_num [ARIB_b]
  have hlog : 0 < Real.log (12 * (50 : ℝ) - ARIB_b) := Real.log_pos hb
  have ha : (0 : ℝ) < ARIB_a := by norm_num [ARIB_a]
  have hc : ARIB_c = 0.55991073 := rfl
  rw [hc]
  have hpos := mul_pos ha hlog
  set L := ARIB_a * Real.log (12 * (50 : ℝ) - ARIB_b) with hL
  linarith [hpos]

/-- The PQ-family encoder output at 50 cd/m2 is strictly below `23/50`. -/
theorem oetf_ST2084_50_lt : oetf_ST2084 50 < 23 / 50 := by
  have hm1 : ST2084_m1 = ((1305 : ℕ) : ℝ) / ((8192 : ℕ) : ℝ) := by
    norm_num [ST2084_m1]
  have hm2 : ST2084_m2 = ((2523 : ℕ) : ℝ) / ((32 : ℕ) : ℝ) := by
    norm_num [ST2084_m2]
  have hz0 : (0 : ℝ) < ((50 : ℝ) / 10000) ^ ST2084_m1 :=
    Real.rpow_pos_of_pos (by norm_num) _
  have hzle : ((50 : ℝ) / 10000) ^ ST2084_m1 ≤ 11 / 25 := by
    rw [hm1]
    apply rpow_div_nat_le 1305 8192 (by norm_num) (by norm_num) (by norm_num)
    rw [show ((50 : ℝ) / 10000) = 1 / 200 by norm_num, div_pow, div_pow,
      one_pow, div_le_div_iff (by positivity) (by positivity), one_mul]
    have hNat : (25 : ℕ) ^ 8192 ≤ 11 ^ 8192 * 200 ^ 1305 := by norm_num
    exact_mod_cast hNat
  set z := ((50 : ℝ) / 10000) ^ ST2084_m1 with hzdef
  have hden : (0 : ℝ) < 1 + ST2084_c3 * z := by
    have hc3 : (0 : ℝ) < ST2084_c3 := by norm_num [ST2084_c3]
    nlinarith [mul_pos hc3 hz0]
  have hnum : (0 : ℝ) ≤ ST2084_c1 + ST2084_c2 * z := by
    have hc1 : (0 : ℝ) ≤ ST2084_c1 := by norm_num [ST2084_c1]
    have hc2 : (0 : ℝ) < ST2084_c2 := by norm_num [ST2084_c2]
    nlinarith [mul_pos hc2 hz0]
  have hbase : (ST2084_c1 + ST2084_c2 * z) / (1 + ST2084_c3 * z) ≤
      2087 / 2108 := by
    rw [div_le_div_iff hden (by norm_num : (0 : ℝ) < 2108)]
    simp only [ST2084_c1, ST2084_c2, ST2084_c3]
    linarith [hzle, hz0]
  have hfinal : ((2087 : ℝ) / 2108) ^ ST2084_m2 < 23 / 50 := by
    rw [hm2]
    apply rpow_div_nat_lt 2523 32 (by norm_num) (by norm_num) (by norm_num)
    rw [div_pow, div_pow, div_lt_div_iff (by positivity) (by positivity)]
    have hNat : (2087 : ℕ) ^ 2523 * 50 ^ 32 < 23 ^ 32 * 2108 ^ 2523 := by
      norm_num
    exact_mod_cast hNat
  have hstep : oetf_ST2084 50 ≤ ((2087 : ℝ) / 2108) ^ ST2084_m2 := by
    unfold oetf_ST2084
    rw [← hzdef]
    exact Real.rpow_le_rpow (div_nonneg hnum hden.le) hbase
      (by norm_num [ST2084_m2])
  linarith

/-- Below-knee bound for the probe `0.5` (scene value before scaling). -/
theorem probe_B_lt : ((1 / 2 : ℝ) / 1000) ^ ((5 : ℝ) / 6) < 1 / 12 := by
  rw [show ((5 : ℝ) / 6) = ((5 : ℕ) : ℝ) / ((6 : ℕ) : ℝ) by norm_num]
  exact rpow_div_nat_lt 5 6 (by norm_num) (by norm_num) (by norm_num)
    (by norm_num)

/-- Lower bound for the probe `0.5` (scene value before scaling). -/
theorem probe_B_gt : (1 / 30000 : ℝ) < ((1 / 2 : ℝ) / 1000) ^ ((5 : ℝ) / 6) := by
  rw [show ((5 : ℝ) / 6) = ((5 : ℕ) : ℝ) / ((6 : ℕ) : ℝ) by norm_num]
  exact rpow_div_nat_gt 5 6 (by norm_num) (by norm_num) (by norm_num)
    (by norm_num)

/-- The reverse HLG EOTF at `0.5` cd/m2 exceeds `1/100`. -/
theorem eotf_reverse_half_gt : (1 / 100 : ℝ) < eotf_reverse_BT2100_HLG (1 / 2) := by
  rw [eotf_reverse_sqrt_branch (1 / 2) (by norm_num) (by linarith [probe_B_lt])]
  have h0 : (0 : ℝ) ≤ 1 / 50 := by norm_num
  have hs : (1 : ℝ) / 50 <
      Real.sqrt (12 * ((1 / 2 : ℝ) / 1000) ^ ((5 : ℝ) / 6)) := by
    rw [Real.lt_sqrt h0]
    nlinarith [probe_B_gt]
  linarith

/-- C1: the two transfer-function families are distinct encode operations:
family `'HLG'` selects the reverse BT.2100 HLG EOTF, which is the plain HLG
OETF composed with the inverse display OOTF, while family `'ST2084'` selects
the PQ curve alone; at the probe input `0.5` scaled to the 100 cd/m2 target,
the HLG-family output differs from the PQ-family output, and also differs
from the plain HLG OETF without OOTF compensation at the same scaled input. -/
theorem transfer_function_distinctness :
    OETF_FUNC "HLG" = some eotf_reverse_BT2100_HLG ∧
    OETF_FUNC "ST2084" = some oetf_ST2084 ∧
    (∀ x : ℝ, eotf_reverse_BT2100_HLG x =
      oetf_BT2100_HLG (ootf_inverse_BT2100_HLG x)) ∧
    get_rgb_with_prime eotf_reverse_BT2100_HLG (1 / 2) ≠
      get_rgb_with_prime oetf_ST2084 (1 / 2) ∧
    get_rgb_with_prime eotf_reverse_BT2100_HLG (1 / 2) ≠
      oetf_BT2100_HLG (1 / 2 * TARGET_BRIGHTNESS) := by
  have hhlg : get_rgb_with_prime eotf_reverse_BT2100_HLG (1 / 2) =
      eotf_reverse_BT2100_HLG 50 := by
    unfold get_rgb_with_prime TARGET_BRIGHTNESS
    norm_num
  have hpq : get_rgb_with_prime oetf_ST2084 (1 / 2) = oetf_ST2084 50 := by
    unfold get_rgb_with_prime TARGET_BRIGHTNESS
    norm_num
  have hplain : (1 / 2 : ℝ) * TARGET_BRIGHTNESS = 50 := by
    unfold TARGET_BRIGHTNESS
    norm_num
  refine ⟨by simp [OETF_FUNC], by simp [OETF_FUNC], fun x => rfl, ?_, ?_⟩
  · rw [hhlg, hpq]
    intro he
    have hgt := eotf_reverse_50_gt
    rw [he] at hgt
    linarith [oetf_ST2084_50_lt]
  · rw [hhlg, hplain]
    intro he
    have hlt := eotf_reverse_50_lt_half
    rw [he] at hlt
    linarith [oetf_BT2100_HLG_50_gt_half]

/-- C6: the encoder first multiplies the linear value by the target peak
luminance and then applies the selected OETF — for every input `x` the output
is exactly `oetf_func (x * TARGET_BRIGHTNESS)`, with no clamping of either the
scaled or the encoded value; scaling after the OETF instead would give a
different result at the probe input `0.5`. -/
theorem scaling_before_oetf :
    (∀ (oetf_func : ℝ → ℝ) (rgb : ℝ),
      get_rgb_with_prime oetf_func rgb = oetf_func (rgb * TARGET_BRIGHTNESS)) ∧
    TARGET_BRIGHTNESS = 100 ∧
    get_rgb_with_prime eotf_reverse_BT2100_HLG (1 / 2) ≠
      eotf_reverse_BT2100_HLG (1 / 2) * TARGET_BRIGHTNESS := by
  refine ⟨fun f x => rfl, rfl, ?_⟩
  have hhlg : get_rgb_with_prime eotf_reverse_BT2100_HLG (1 / 2) =
      eotf_reverse_BT2100_HLG 50 := by
    unfold get_rgb_with_prime TARGET_BRIGHTNESS
    norm_num
  rw [hhlg, show TARGET_BRIGHTNESS = (100 : ℝ) from rfl]
  intro he
  have hlt := eotf_reverse_50_lt_half
  rw [he] at hlt
  have := eotf_reverse_half_gt
  nlinarith

/-! ## Run structure, patch counts and the unknown-transfer-function abort
(main.py lines 54-61, 73-80, 276-282) -/

/-- `COLOR_CHECKER_EACH_NAME` (main.py lines 73-80). -/
def COLOR_CHECKER_EACH_NAME : List String :=
  ["dark skin", "light skin", "blue sky", "foliage",
   "blue flower", "bluish green", "orange", "purplish blue",
   "moderate red", "purple", "yellow green", "orange yellow",
   "blue", "green", "red", "yellow",
   "magenta", "cyan", "white 9.5", "neutral 8",
   "neutral 6.5", "neutral 5", "neutral 3.5", "black 2"]

/-- The list of mosaic rectangles the compositor paints (one loop iteration
per rectangle, main.py lines 227-234). -/
def mosaic_rects (hn vn : ℕ) : List Rect :=
  (List.range (hn * vn)).map (mosaic_rect hn vn)

/-- The BT.2100 luminance-weighted inverse OOTF on an RGB triple (the path
`colour.models.ootf_inverse` takes on the script's `(N, 3)` arrays):
`Y_D = 0.2627 R + 0.6780 G + 0.0593 B`, each channel scaled by
`(Y_D / 1000) ^ ((1 - gamma) / gamma) / 1000`. -/
noncomputable def ootf_inverse_BT2100_HLG_rgb (v : Rgb) : Rgb :=
  if 0.2627 * v.1 + 0.6780 * v.2.1 + 0.0593 * v.2.2 = 0 then (0, 0, 0)
  else
    (((0.2627 * v.1 + 0.6780 * v.2.1 + 0.0593 * v.2.2) / 1000) ^
        ((1 - hlg_gamma 1000) / hlg_gamma 1000) * (v.1 / 1000),
     ((0.2627 * v.1 + 0.6780 * v.2.1 + 0.0593 * v.2.2) / 1000) ^
        ((1 - hlg_gamma 1000) / hlg_gamma 1000) * (v.2.1 / 1000),
     ((0.2627 * v.1 + 0.6780 * v.2.1 + 0.0593 * v.2.2) / 1000) ^
        ((1 - hlg_gamma 1000) / hlg_gamma 1000) * (v.2.2 / 1000))

/-- The reverse BT.2100 HLG EOTF on an RGB triple: channelwise plain OETF
after the luminance-weighted inverse OOTF. -/
noncomputable def eotf_reverse_BT2100_HLG_rgb (v : Rgb) : Rgb :=
  (oetf_BT2100_HLG (ootf_inverse_BT2100_HLG_rgb v).1,
   oetf_BT2100_HLG (ootf_inverse_BT2100_HLG_rgb v).2.1,
   oetf_BT2100_HLG (ootf_inverse_BT2100_HLG_rgb v).2.2)

/-- The ST 2084 OETF on an RGB triple (elementwise). -/
noncomputable def oetf_ST2084_rgb (v : Rgb) : Rgb :=
  (oetf_ST2084 v.1, oetf_ST2084 v.2.1, oetf_ST2084 v.2.2)

/-- Rational triples embedded into real triples. -/
def toRgb (v : Vec3) : Rgb := ((v.1 : ℝ), (v.2.1 : ℝ), (v.2.2 : ℝ))

/-- `get_rgb_with_prime` on the whole `(N, 3)` array (main.py lines 141-166):
scale every triple by `TARGET_BRIGHTNESS`, then apply the selected OETF to
each scaled triple. -/
noncomputable def get_rgb_with_prime_arr (oetfT : Rgb → Rgb) (rgb : List Rgb) :
    List Rgb :=
  (rgb.map (fun v => (v.1 * TARGET_BRIGHTNESS, v.2.1 * TARGET_BRIGHTNESS,
    v.2.2 * TARGET_BRIGHTNESS))).map oetfT

/-- `main_func` (main.py lines 276-282) on an injected chart dataset: encoded
triples, the composite mosaic canvas, and the list of single-patch canvases. -/
noncomputable def main_func (oetfT : Rgb → Rgb) (chart : List Vec3)
    (wp : ℚ × ℚ) : List Rgb × Canvas × List Canvas :=
  let rgb_prime :=
    get_rgb_with_prime_arr oetfT ((main_rgb_linear chart wp).map toRgb)
  (rgb_prime,
   img_all_patch h_num v_num (fun i => rgb_prime.getD i (0, 0, 0)),
   measure_canvases (fun i => rgb_prime.getD i (0, 0, 0)))

/-- C9: the encoded-triple count equals the chart patch count equals the grid
capacity: a 24-patch chart yields exactly 24 encoded triples, the compositor
paints exactly `6 * 4 = 24` mosaic rectangles and produces exactly 24
single-patch canvases, and the canonical name table has 24 entries. -/
theorem patch_count_invariant :
    COLOR_CHECKER_EACH_NAME.length = 24 ∧
    h_num * v_num = 24 ∧
    (mosaic_rects h_num v_num).length = 24 ∧
    ∀ (oetfT : Rgb → Rgb) (chart : List Vec3) (wp : ℚ × ℚ),
      chart.length = 24 →
      (main_func oetfT chart wp).1.length = 24 ∧
      (main_func oetfT chart wp).2.2.length = 24 := by
  refine ⟨rfl, rfl, by simp [mosaic_rects, h_num, v_num], ?_⟩
  intro oetfT chart wp hlen
  constructor
  · simp [main_func, get_rgb_with_prime_arr, main_rgb_linear, hlen]
  · simp [main_func, measure_canvases, h_num, v_num]

/-! ### Abort behavior for an unrecognized transfer-function name -/

/-- Events of one `main_func` run, in program order. -/
inductive Ev where
  | chartRead (patches : ℕ)
  | patchesConverted (patches : ℕ)
  | typeError
  | previewShown
  | imageWritten (ordinal : ℕ)
deriving DecidableEq, BEq

/-- The event trace of a `main_func` run for a given `OETF_TYPE` string.  The
chart is read (line 279) and converted to linear RGB (line 280) first.  For an
unrecognized name, module lines 60-61 left `OETF_FUNC = None`, so the call
`oetf_func(rgb_bright)` inside `get_rgb_with_prime` (line 164) raises a
`TypeError`; otherwise encoding succeeds and `make_color_checker_image` shows
the preview and writes the mosaic file (ordinal 0) followed by the 24
measurement files (ordinals 1-24). -/
def main_trace (oetf_type : String) : List Ev :=
  [Ev.chartRead 24, Ev.patchesConverted 24] ++
    (if oetf_type = "HLG" ∨ oetf_type = "ST2084" then
      Ev.previewShown :: (List.range 25).map Ev.imageWritten
    else [Ev.typeError])

/-- `OETF_FUNC` is `None` exactly for unrecognized family names. -/
theorem OETF_FUNC_none_iff (t : String) :
    OETF_FUNC t = none ↔ ¬ (t = "HLG" ∨ t = "ST2084") := by
  unfold OETF_FUNC
  by_cases h1 : t = "HLG"
  · simp [h1]
  · by_cases h2 : t = "ST2084" <;> simp [h1, h2]

/-- A trace shows the error being detected before any processing: a
`typeError` occurs, and nothing before the first `typeError` is a patch
conversion. -/
def detected_before_processing (l : List Ev) : Bool :=
  l.contains Ev.typeError &&
    (l.takeWhile (fun e => !(e == Ev.typeError))).all
      (fun e => match e with
        | Ev.patchesConverted _ => false
        | _ => true)

/-- C3 (refuted): it is not the case that an unrecognized transfer-function
name makes the run fail before any patch is processed: for the concrete name
`"2020PQ"` the trace converts all 24 patches and only then aborts. -/
theorem unknown_oetf_not_detected_early :
    ¬ (∀ t : String, t ≠ "HLG" → t ≠ "ST2084" →
        detected_before_processing (main_trace t) = true ∧
        ∀ n, Ev.imageWritten n ∉ main_trace t) := by
  intro h
  have h1 := (h "2020PQ" (by decide) (by decide)).1
  exact absurd h1 (by decide)

/-- C3 (amended): with an unrecognized transfer-function name the selected
encode function is `None`; the run reads the chart and converts all 24
patches to linear RGB, then aborts with a `TypeError` when the encoder is
applied — before any preview or image write, so no image artifact is
produced. -/
theorem unknown_oetf_aborts_after_conversion :
    ∀ t : String, t ≠ "HLG" → t ≠ "ST2084" →
      OETF_FUNC t = none ∧
      main_trace t = [Ev.chartRead 24, Ev.patchesConverted 24, Ev.typeError] ∧
      ∀ n, Ev.imageWritten n ∉ main_trace t := by
  intro t h1 h2
  have hcond : ¬ (t = "HLG" ∨ t = "ST2084") := by tauto
  have htrace : main_trace t =
      [Ev.chartRead 24, Ev.patchesConverted 24, Ev.typeError] := by
    unfold main_trace
    rw [if_neg hcond]
    rfl
  refine ⟨(OETF_FUNC_none_iff t).mpr hcond, htrace, ?_⟩
  intro n
  rw [htrace]
  simp

/-! ## Witnesses -/

/-- Witness for C4 at the in-range input `1/4`. -/
theorem quantize_wraps_out_of_range_witness :
    (0 : ℚ) ≤ 1 / 4 ∧ (1 / 4 : ℚ) ≤ 1 ∧
    (get_16bit_img (1 / 4) : ℤ) = np_round (1 / 4 * IMG_MAX_LEVEL) :=
  ⟨by norm_num, by norm_num,
    quantize_wraps_out_of_range.1 (1 / 4) (by norm_num) (by norm_num)⟩

/-- Witness for C8 at patch ordinal `0` and the interior pixel `(400, 820)`. -/
theorem single_patch_canvas_exact_witness :
    0 < h_num * v_num ∧
    img_each_patch_state (fun _ => ((1 : ℝ), 0, 0)) 1 400 820 = (1, 0, 0) := by
  refine ⟨by decide, ?_⟩
  have h := (single_patch_canvas_exact.2 (fun _ => ((1 : ℝ), 0, 0)) 0
    (by decide)).2 400 820
  have hrect := single_patch_canvas_exact.1.1
  rw [h, hrect]
  norm_num [inRect]

/-- Witness for C10 at mosaic ordinal `7` (grid column 1, grid row 1). -/
theorem mosaic_row_major_witness :
    7 < h_num * v_num ∧
    mosaic_rect h_num v_num 7 =
      ⟨226 + 250 * ((7 % 6 : ℕ) : ℤ), 51 + 250 * ((7 / 6 : ℕ) : ℤ),
        240, 240⟩ :=
  ⟨by decide, (mosaic_row_major (fun _ => (0, 0, 0)) 7 (by decide)).1⟩

/-- Witness for C9 on a concrete 24-entry chart. -/
theorem patch_count_invariant_witness :
    (List.replicate 24 ((0 : ℚ), (0 : ℚ), (0 : ℚ))).length = 24 ∧
    (main_func (fun v => v) (List.replicate 24 (0, 0, 0))
      (0.3127, 0.3290)).1.length = 24 :=
  ⟨by simp,
    (patch_count_invariant.2.2.2 (fun v => v) (List.replicate 24 (0, 0, 0))
      (0.3127, 0.3290) (by simp)).1⟩

/-- Witness for the amended C3 at the concrete name `"2020PQ"`. -/
theorem unknown_oetf_aborts_witness :
    ("2020PQ" : String) ≠ "HLG" ∧ ("2020PQ" : String) ≠ "ST2084" ∧
    main_trace "2020PQ" =
      [Ev.chartRead 24, Ev.patchesConverted 24, Ev.typeError] :=
  ⟨by decide, by decide,
    (unknown_oetf_aborts_after_conversion "2020PQ" (by decide) (by decide)).2.1⟩

end ColorChecker
